import Mathlib

/-!
Shallow embedding of `generate_rainfall_map.py` (IMD district-wise rainfall
visualization): the rainfall classifier, the district-identity normalizer,
the measurement aggregator with the Mumbai split rule, the geometry column
discovery, and the left-outer reconciliation join.  Rainfall values are
modelled as rationals (Python floats used only as decimal literals and
means of decimal data), strings as Lean strings (lists of characters).
-/

namespace Rainfall

/-! ## Classifier (source: get_color, get_category) -/

/-- Severity buckets of §4.5, plus the fallback reached by the final `else`
branch of both source functions (label "No Data", grey). -/
inductive SeverityBucket where
  | NONE | MODERATE | HEAVY | VERY_HEAVY | EXTREME | NO_DATA
deriving DecidableEq, Repr

open SeverityBucket

/-- Embedding of `get_color` (source lines 15-30): the if/elif chain on the
rainfall value, returning the hex fill color. -/
def get_color (value : ℚ) : String :=
  if value = 0 then "#D3D3D3"
  else if 0 < value ∧ value < 64.5 then "#FFFFE0"
  else if 64.5 ≤ value ∧ value ≤ 115.5 then "#FFA500"
  else if 115.5 < value ∧ value ≤ 204.4 then "#FF0000"
  else if 204.4 < value then "#8B0000"
  else "#D3D3D3"

/-- Embedding of `get_category` (source lines 32-44): same chain of
conditions, returning the human-readable label. -/
def get_category (value : ℚ) : String :=
  if value = 0 then "No Rainfall"
  else if 0 < value ∧ value < 64.5 then "Moderate Rainfall"
  else if 64.5 ≤ value ∧ value ≤ 115.5 then "Heavy Rainfall"
  else if 115.5 < value ∧ value ≤ 204.4 then "Very Heavy Rainfall"
  else if 204.4 < value then "Extremely Heavy Rainfall"
  else "No Data"

/-- The common condition structure of `get_color` and `get_category`,
abstracted to the bucket it selects. -/
def classify (value : ℚ) : SeverityBucket :=
  if value = 0 then NONE
  else if 0 < value ∧ value < 64.5 then MODERATE
  else if 64.5 ≤ value ∧ value ≤ 115.5 then HEAVY
  else if 115.5 < value ∧ value ≤ 204.4 then VERY_HEAVY
  else if 204.4 < value then EXTREME
  else NO_DATA

/-- The value range guarding each bucket in the source if/elif chains
(`NO_DATA` guards nothing: it is only the fallback). -/
def inBucketRange : SeverityBucket → ℚ → Prop
  | NONE, v => v = 0
  | MODERATE, v => 0 < v ∧ v < 64.5
  | HEAVY, v => 64.5 ≤ v ∧ v ≤ 115.5
  | VERY_HEAVY, v => 115.5 < v ∧ v ≤ 204.4
  | EXTREME, v => 204.4 < v
  | NO_DATA, _ => False

instance (b : SeverityBucket) (v : ℚ) : Decidable (inBucketRange b v) := by
  cases b <;> simp only [inBucketRange] <;> infer_instance

/-! ## Claim theorems: classifier -/

/-- C1: `classify` is total over `[0, +∞)`: the five severity buckets
partition the range with no gap and no overlap (exactly one bucket range
holds for each non-negative value, and `classify` returns that bucket,
never the `NO_DATA` fallback), and the boundary values map to the
documented side: `classify 0 = NONE` with label "No Rainfall" and light
grey, `classify 64.5 = HEAVY`, `classify 115.5 = HEAVY` (not
`VERY_HEAVY`), `classify 204.4 = VERY_HEAVY`. -/
theorem classify_partition_and_boundaries (v : ℚ) (h : 0 ≤ v) :
    (∃! b : SeverityBucket, inBucketRange b v) ∧
    (∀ b : SeverityBucket, inBucketRange b v → classify v = b) ∧
    classify v ≠ NO_DATA ∧
    classify (0 : ℚ) = NONE ∧ get_category 0 = "No Rainfall" ∧
    get_color 0 = "#D3D3D3" ∧
    classify (64.5 : ℚ) = HEAVY ∧ classify (115.5 : ℚ) = HEAVY ∧
    classify (115.5 : ℚ) ≠ VERY_HEAVY ∧ classify (204.4 : ℚ) = VERY_HEAVY := by
  have hex : (∃! b : SeverityBucket, inBucketRange b v) := by
    rcases eq_or_lt_of_le h with h0 | h0
    · exact ⟨NONE, h0.symm, by
        rintro (_|_|_|_|_|_) hb <;> simp [inBucketRange] at hb ⊢ <;> linarith⟩
    · rcases lt_or_le v 64.5 with h1 | h1
      · exact ⟨MODERATE, ⟨h0, h1⟩, by
          rintro (_|_|_|_|_|_) hb <;> simp [inBucketRange] at hb ⊢ <;> linarith⟩
      · rcases le_or_lt v 115.5 with h2 | h2
        · exact ⟨HEAVY, ⟨by linarith, h2⟩, by
            rintro (_|_|_|_|_|_) hb <;> simp [inBucketRange] at hb ⊢ <;> linarith⟩
        · rcases le_or_lt v 204.4 with h3 | h3
          · exact ⟨VERY_HEAVY, ⟨h2, h3⟩, by
              rintro (_|_|_|_|_|_) hb <;> simp [inBucketRange] at hb ⊢ <;> linarith⟩
          · exact ⟨EXTREME, h3, by
              rintro (_|_|_|_|_|_) hb <;> simp [inBucketRange] at hb ⊢ <;> linarith⟩
  have hcl : ∀ b : SeverityBucket, inBucketRange b v → classify v = b := by
    rintro b hb
    cases b <;> simp only [inBucketRange] at hb <;> unfold classify <;> split_ifs <;>
      first
        | rfl
        | (exfalso; first | (simp_all; done) | (simp_all; linarith) | linarith)
  refine ⟨hex, hcl, ?_, ?_, ?_, ?_, ?_, ?_, ?_, ?_⟩
  · obtain ⟨b, hb, -⟩ := hex
    rw [hcl b hb]
    cases b <;> simp [inBucketRange] at hb ⊢
  · norm_num [classify]
  · norm_num [get_category]
  · norm_num [get_color]
  · norm_num [classify]
  · norm_num [classify]
  · norm_num [classify]
    decide
  · norm_num [classify]

/-- Witness for C1 at the concrete value 70. -/
theorem classify_partition_and_boundaries_witness :
    (0 : ℚ) ≤ 70 ∧ classify (70 : ℚ) ≠ NO_DATA :=
  ⟨by norm_num, (classify_partition_and_boundaries 70 (by norm_num)).2.2.1⟩

/-- C2 counterexample: at the concrete negative input `-1`, the label is
"No Data" (the fallback `else` branch), not the NONE label "No Rainfall"
returned at `0`, so a negative value does not yield the same result as
`classify 0`. -/
theorem negative_label_counterexample :
    get_category (-1 : ℚ) = "No Data" ∧ get_category (0 : ℚ) = "No Rainfall" ∧
    get_category (-1 : ℚ) ≠ get_category (0 : ℚ) ∧
    classify (-1 : ℚ) = NO_DATA ∧ classify (-1 : ℚ) ≠ classify (0 : ℚ) := by
  refine ⟨by norm_num [get_category], by norm_num [get_category], ?_, ?_, ?_⟩
  · norm_num [get_category]
    decide
  · norm_num [classify]
  · norm_num [classify]
    decide

/-- C2 amended: every negative input falls through every branch of the
if/elif chains, so it receives the NONE color light grey (the same color
as `classify 0`), but the distinct fallback label "No Data" and the
`NO_DATA` bucket rather than the NONE label "No Rainfall". -/
theorem negative_input_fallback (v : ℚ) (h : v < 0) :
    get_color v = "#D3D3D3" ∧ get_color v = get_color 0 ∧
    get_category v = "No Data" ∧ classify v = NO_DATA := by
  have hcol : get_color v = "#D3D3D3" := by
    unfold get_color
    split_ifs <;> first | rfl | linarith
  refine ⟨hcol, ?_, ?_, ?_⟩
  · rw [hcol]; norm_num [get_color]
  · unfold get_category
    split_ifs <;> first | rfl | linarith
  · unfold classify
    split_ifs <;> first | rfl | linarith

/-- Witness for the amended C2 at the concrete input `-1`. -/
theorem negative_input_fallback_witness :
    (-1 : ℚ) < 0 ∧ get_color (-1 : ℚ) = get_color 0 :=
  ⟨by norm_num, (negative_input_fallback (-1) (by norm_num)).2.1⟩

/-! ## Identity normalizer (source: process_data lines 66-83, 153-156)

Python strings are modelled as Lean strings (in this toolchain a `String`
wraps a `List Char`); `str.strip` and `str.upper` are modelled on the
character list.  `str.upper` is `Char.toUpper` pointwise (the district
labels are ASCII); `str.strip` drops leading and trailing whitespace. -/

/-- The characters removed by Python `str.strip`: ASCII whitespace
(space, tab, newline, carriage return, vertical tab, form feed). -/
def isSpaceChar (c : Char) : Bool :=
  c.toNat == 32 || c.toNat == 9 || c.toNat == 10 || c.toNat == 13 ||
  c.toNat == 11 || c.toNat == 12

/-- Drop leading whitespace. -/
def lstripL (l : List Char) : List Char := l.dropWhile isSpaceChar

/-- Drop trailing whitespace. -/
def rstripL (l : List Char) : List Char := (l.reverse.dropWhile isSpaceChar).reverse

/-- Python `str.strip`: drop leading and trailing whitespace. -/
def stripL (l : List Char) : List Char := rstripL (lstripL l)

/-- Python `str.upper` on a character list (ASCII). -/
def upperL (l : List Char) : List Char := l.map Char.toUpper

/-- `str.strip().str.upper()` applied to a label (source lines 67 and
137/144): the canonical form before alias resolution. -/
def canon (s : String) : String := String.mk (upperL (stripL s.toList))

/-- The measurement alias table (source lines 73-81): new official
district names mapped to the names used by the geometry dataset. -/
def name_mapping : List (String × String) :=
  [("AHILYANAGAR", "AHMADNAGAR"),
   ("CHHATRAPATI SAMBHAJI NAGAR", "AURANGABAD"),
   ("CHATRAPATI SAMBHAJI NAGAR", "AURANGABAD"),
   ("DHARASHIV", "OSMANABAD"),
   ("RAIGAD", "RAIGARH"),
   ("SHOLAPUR", "SOLAPUR"),
   ("BEED", "BID")]

/-- `Series.replace` with a dict: a label equal to a key of the table is
replaced by the mapped value, anything else passes through. -/
def applyAlias (table : List (String × String)) (u : String) : String :=
  (table.lookup u).getD u

/-- Normalization of a measurement district label (source lines 67 and
83): strip, uppercase, then resolve through `name_mapping`. -/
def normalize (s : String) : String := applyAlias name_mapping (canon s)

/-- The supplementary-source (Goa) alias table (source lines 153-155),
applied only to the Goa geometry labels. -/
def goa_mapping : List (String × String) := [("NORTH GOA", "GOA")]

/-! ## Claim theorems: normalizer -/

/-- C3: any two labels aliased by the measurement table normalize to the
same canonical key (each table key normalizes to the same key as its
target, and the mixed-case spec examples agree); `normalize` is a total
function, and a label whose canonical form is not in the table passes
through trimmed and uppercased. -/
theorem normalize_alias_coherence :
    (∀ k v : String, (k, v) ∈ name_mapping → normalize k = normalize v) ∧
    normalize "Ahilyanagar" = normalize "AHMADNAGAR" ∧
    normalize "Dharashiv" = normalize "OSMANABAD" ∧
    normalize "Beed" = normalize "BID" ∧
    (∀ s : String, name_mapping.lookup (canon s) = none → normalize s = canon s) := by
  refine ⟨?_, by decide, by decide, by decide, ?_⟩
  · intro k v h
    fin_cases h <;> decide
  · intro s h
    unfold normalize applyAlias
    rw [h]
    rfl

/-- Witness for C3: the alias pair AHILYANAGAR/AHMADNAGAR and the unmapped
label "Pune". -/
theorem normalize_alias_coherence_witness :
    (("AHILYANAGAR", "AHMADNAGAR") ∈ name_mapping ∧
      normalize "AHILYANAGAR" = normalize "AHMADNAGAR") ∧
    (name_mapping.lookup (canon " Pune ") = none ∧
      normalize " Pune " = canon " Pune ") :=
  ⟨⟨by decide, normalize_alias_coherence.1 _ _ (by decide)⟩,
   ⟨by decide, normalize_alias_coherence.2.2.2.2 " Pune " (by decide)⟩⟩

/-! ## Normalization idempotence: helper lemmas -/

theorem toNat_ofNat_of_valid {n : Nat} (h : n.isValidChar) : (Char.ofNat n).toNat = n := by
  rw [Char.ofNat, dif_pos h]
  rfl

theorem toUpper_toNat_of_lower {c : Char} (h1 : 97 ≤ c.toNat) (h2 : c.toNat ≤ 122) :
    (Char.toUpper c).toNat = c.toNat - 32 := by
  unfold Char.toUpper
  rw [if_pos ⟨h1, h2⟩]
  exact toNat_ofNat_of_valid (Or.inl (by omega))

theorem toUpper_eq_self {c : Char} (h : ¬(97 ≤ c.toNat ∧ c.toNat ≤ 122)) :
    Char.toUpper c = c := by
  unfold Char.toUpper
  rw [if_neg h]

theorem toUpper_idem (c : Char) : (Char.toUpper c).toUpper = Char.toUpper c := by
  by_cases hc : 97 ≤ c.toNat ∧ c.toNat ≤ 122
  · have h' := toUpper_toNat_of_lower hc.1 hc.2
    apply toUpper_eq_self
    omega
  · rw [toUpper_eq_self hc]
    exact toUpper_eq_self hc

theorem isSpaceChar_toUpper (c : Char) : isSpaceChar (Char.toUpper c) = isSpaceChar c := by
  by_cases hc : 97 ≤ c.toNat ∧ c.toNat ≤ 122
  · have h' := toUpper_toNat_of_lower hc.1 hc.2
    rw [Bool.eq_iff_iff]
    simp only [isSpaceChar, Bool.or_eq_true, beq_iff_eq, h']
    omega
  · rw [toUpper_eq_self hc]

theorem dropWhile_idem (p : Char → Bool) (l : List Char) :
    (l.dropWhile p).dropWhile p = l.dropWhile p := by
  induction l with
  | nil => rfl
  | cons a t ih =>
    by_cases h : p a <;> simp [List.dropWhile_cons, h, ih]

theorem rstripL_idem (l : List Char) : rstripL (rstripL l) = rstripL l := by
  unfold rstripL
  rw [List.reverse_reverse, dropWhile_idem]

theorem rstripL_cons_of_neg {a : Char} (t : List Char) (h : ¬ isSpaceChar a) :
    rstripL (a :: t) = a :: rstripL t := by
  unfold rstripL
  rw [List.reverse_cons, List.dropWhile_append]
  by_cases he : (t.reverse.dropWhile isSpaceChar).isEmpty
  · rw [if_pos he, List.dropWhile_cons_of_neg (by simpa using h)]
    simp only [List.dropWhile_nil, List.reverse_cons, List.reverse_nil, List.nil_append]
    rw [List.isEmpty_iff] at he
    rw [he]
    rfl
  · rw [if_neg he, List.reverse_append]
    rfl

theorem lstripL_stripL (l : List Char) : lstripL (stripL l) = stripL l := by
  unfold stripL
  induction l with
  | nil => rfl
  | cons a t ih =>
    by_cases h : isSpaceChar a
    · rw [show lstripL (a :: t) = lstripL t from List.dropWhile_cons_of_pos h]
      exact ih
    · rw [show lstripL (a :: t) = a :: t from List.dropWhile_cons_of_neg (by simpa using h)]
      rw [rstripL_cons_of_neg _ h]
      exact List.dropWhile_cons_of_neg (by simpa using h)

theorem stripL_idem (l : List Char) : stripL (stripL l) = stripL l := by
  show rstripL (lstripL (stripL l)) = stripL l
  rw [lstripL_stripL]
  unfold stripL
  rw [rstripL_idem]

theorem lstripL_upperL (l : List Char) : lstripL (upperL l) = upperL (lstripL l) := by
  unfold lstripL upperL
  rw [List.dropWhile_map, show (isSpaceChar ∘ Char.toUpper) = isSpaceChar from
    funext isSpaceChar_toUpper]

theorem rstripL_upperL (l : List Char) : rstripL (upperL l) = upperL (rstripL l) := by
  unfold rstripL upperL
  rw [← List.map_reverse, List.dropWhile_map, ← List.map_reverse,
    show (isSpaceChar ∘ Char.toUpper) = isSpaceChar from funext isSpaceChar_toUpper]

theorem stripL_upperL (l : List Char) : stripL (upperL l) = upperL (stripL l) := by
  unfold stripL
  rw [lstripL_upperL, rstripL_upperL]

theorem upperL_idem (l : List Char) : upperL (upperL l) = upperL l := by
  unfold upperL
  rw [List.map_map]
  exact List.map_congr_left fun c _ => toUpper_idem c

theorem canon_canon (s : String) : canon (canon s) = canon s := by
  unfold canon
  congr 1
  show upperL (stripL (upperL (stripL s.toList))) = upperL (stripL s.toList)
  rw [stripL_upperL, stripL_idem, upperL_idem]

theorem lookup_name_mapping_mem {u t : String} (h : name_mapping.lookup u = some t) :
    t ∈ ["AHMADNAGAR", "AURANGABAD", "OSMANABAD", "RAIGARH", "SOLAPUR", "BID"] := by
  simp only [name_mapping, List.lookup] at h
  repeat' split at h
  all_goals simp_all

theorem normalize_idem (s : String) : normalize (normalize s) = normalize s := by
  unfold normalize applyAlias
  cases h : name_mapping.lookup (canon s) with
  | none =>
    simp only [h, Option.getD_none]
    rw [canon_canon, h]
    rfl
  | some t =>
    simp only [h, Option.getD_some]
    have ht := lookup_name_mapping_mem h
    fin_cases ht <;> decide

/-! ## Claim theorem: idempotence -/

/-- C9: normalization is idempotent on every string, and every target of
both alias tables (the measurement table and the supplementary Goa table)
is a fixed point of normalization. -/
theorem normalize_idempotent_and_targets_fixed :
    (∀ s : String, normalize (normalize s) = normalize s) ∧
    (∀ kv, kv ∈ name_mapping → normalize kv.2 = kv.2) ∧
    (∀ kv, kv ∈ goa_mapping → normalize kv.2 = kv.2) := by
  refine ⟨normalize_idem, ?_, ?_⟩
  · intro kv h
    fin_cases h <;> decide
  · intro kv h
    fin_cases h
    decide

/-- Witness for C9 at the concrete label "  Beed " and the Goa table
entry. -/
theorem normalize_idempotent_witness :
    normalize (normalize "  Beed ") = normalize "  Beed " ∧
    (("NORTH GOA", "GOA") ∈ goa_mapping ∧ normalize "GOA" = "GOA") :=
  ⟨normalize_idempotent_and_targets_fixed.1 _,
   ⟨by decide,
    normalize_idempotent_and_targets_fixed.2.2 ("NORTH GOA", "GOA") (by decide)⟩⟩

/-! ## Measurement aggregator (source: process_data lines 56-97)

A raw measurement row carries the DISTRICT label and the raw R/F cell.
`pd.to_numeric(..., errors="coerce")` is modelled by a decimal-notation
parser over rationals (the rainfall cells are decimal numerals or
non-numeric strings such as "N/A"); `.fillna(0)` by `Option.getD 0`;
`.round(1)` by round-half-to-even at one decimal, as numpy rounds. -/

structure RainRow where
  district : String
  rf : String
deriving DecidableEq, Repr

/-- Accumulate a digit list into a natural number. -/
def digitsToNat (l : List Char) : ℕ :=
  l.foldl (fun n c => 10 * n + (c.toNat - 48)) 0

/-- Decimal numeral parser modelling `pd.to_numeric(cell, errors="coerce")`
on a cell: optional sign, integer digits, optional fractional digits (at
least one digit overall); anything else coerces to `none` (NaN). -/
def parseNum (s : String) : Option ℚ :=
  let l := stripL s.toList
  let signAndDigits : ℚ × List Char :=
    match l with
    | '-' :: rest => (-1, rest)
    | '+' :: rest => (1, rest)
    | _ => (1, l)
  let sign := signAndDigits.1
  let d := signAndDigits.2
  let ip := d.takeWhile (fun c => c != '.')
  let rest := d.dropWhile (fun c => c != '.')
  match rest with
  | [] =>
    if ip ≠ [] ∧ ip.all Char.isDigit then some (sign * digitsToNat ip) else none
  | _ :: fp =>
    if (ip ≠ [] ∨ fp ≠ []) ∧ ip.all Char.isDigit ∧ fp.all Char.isDigit then
      some (sign * (digitsToNat ip + digitsToNat fp / 10 ^ fp.length))
    else none

/-- The value a row contributes after coercion: parse failures become 0
(source line 64, `to_numeric(...).fillna(0)`). -/
def rowValue (r : RainRow) : ℚ := (parseNum r.rf).getD 0

/-- Warnings printed while converting the R/F column (source lines 63-64):
the conversion is a silent `pd.to_numeric(...).fillna(0)` with no print
statement, so no warning is ever emitted at this step. -/
def value_parse_warnings (rows : List RainRow) : List String :=
  rows.foldr (fun _ acc => acc) []

/-- Source lines 64-83 applied to every row: coerce the value and
normalize the district label. -/
def normRows (rows : List RainRow) : List (String × ℚ) :=
  rows.map (fun r => (normalize r.district, rowValue r))

/-- The Mumbai district-split rule (source lines 85-92): when some row is
keyed MUMBAI, append a copy of every MUMBAI row re-keyed MUMBAI SUBURBAN. -/
def mumbaiSplit (rows : List (String × ℚ)) : List (String × ℚ) :=
  if rows.any (fun p => p.1 == "MUMBAI") then
    rows ++ (rows.filter (fun p => p.1 == "MUMBAI")).map
      (fun p => ("MUMBAI SUBURBAN", p.2))
  else rows

/-- Round-half-to-even to an integer, as numpy/pandas `round` does on
exact halves. -/
def roundHalfEven (q : ℚ) : ℤ :=
  let f := q.floor
  if q - f < 1/2 then f
  else if q - f > 1/2 then f + 1
  else if f % 2 = 0 then f else f + 1

/-- `Series.round(1)` (source line 97). -/
def round1 (q : ℚ) : ℚ := (roundHalfEven (10 * q) : ℚ) / 10

/-- Arithmetic mean of the values grouped under district `d`. -/
def meanFor (rows : List (String × ℚ)) (d : String) : ℚ :=
  let vs := (rows.filter (fun p => p.1 == d)).map Prod.snd
  vs.sum / vs.length

/-- The distinct district keys of the grouped frame. -/
def districtsOf (rows : List (String × ℚ)) : List String :=
  (rows.map Prod.fst).dedup

/-- One aggregated record per canonical district. -/
structure AggRow where
  district : String
  rainfall_mm : ℚ
deriving DecidableEq, Repr

/-- The whole aggregation stage (source lines 56-97): normalize, split
Mumbai, group by district, take the mean, round to one decimal. -/
def aggregate (rows : List RainRow) : List AggRow :=
  let nr := mumbaiSplit (normRows rows)
  (districtsOf nr).map (fun d => ⟨d, round1 (meanFor nr d)⟩)

/-- Key lookup into the aggregated output. -/
def aggValue (rows : List RainRow) (d : String) : Option ℚ :=
  ((aggregate rows).find? (fun a => a.district == d)).map AggRow.rainfall_mm

/-- The aggregation stage with the district-split rule disabled: the
baseline against which the frame effect of the Mumbai rule is stated. -/
def aggregateNoSplit (rows : List RainRow) : List AggRow :=
  let nr := normRows rows
  (districtsOf nr).map (fun d => ⟨d, round1 (meanFor nr d)⟩)

/-- Key lookup into the no-split baseline. -/
def aggValueNoSplit (rows : List RainRow) (d : String) : Option ℚ :=
  ((aggregateNoSplit rows).find? (fun a => a.district == d)).map AggRow.rainfall_mm

/-! ## Geometry features, column discovery and reconciliation join
(source: process_data lines 101-198) -/

/-- A geometry feature after its district attribute has been normalized
(`DISTRICT_NORM` column); the polygon is opaque to the core and carried
as an identifier. -/
structure GeoFeature where
  district_norm : String
  geom : ℕ
deriving DecidableEq, Repr

/-- A fully assembled output record (columns `RAINFALL_MM`, `CATEGORY`,
`COLOR` of the merged frame, source lines 190-192). -/
structure ReconFeature where
  district_norm : String
  geom : ℕ
  rainfall_mm : ℚ
  category : String
  color : String
deriving DecidableEq, Repr

/-- A column of a geometry attribute table: its name and whether pandas
sees its values as string/object dtype. -/
structure Column where
  name : String
  is_textual : Bool
deriving DecidableEq, Repr

/-- Python `str.lower` (ASCII), the mirror image of `upperL`. -/
def lowerS (s : String) : String := String.mk (s.toList.map Char.toLower)

/-- The fixed priority list of candidate district-column names
(source line 122). -/
def potential_cols : List String :=
  ["dtname", "district", "DISTRICT", "NAME_2", "Dist_Name", "Name",
   "objectid", "censuscode"]

/-- The test applied to each column by `find_district_col` (source lines
124-125): the lowercased name is among the lowercased candidates and the
column dtype is string/object. -/
def qualifies (c : Column) : Bool :=
  (potential_cols.map lowerS).contains (lowerS c.name) && c.is_textual

/-- Embedding of `find_district_col` (source lines 121-127): scan the
columns in table order and return the first that qualifies; `none` when
no column qualifies (the `SchemaResolutionError` outcome). -/
def find_district_col (cols : List Column) : Option String :=
  (cols.find? qualifies).map Column.name

/-- The rows produced for one geometry feature by the pandas left merge
(source line 187): all matching aggregated rows, or a single unmatched
row with a missing value. -/
def mergeLeftRows (g : GeoFeature) (agg : List AggRow) : List (GeoFeature × Option ℚ) :=
  match agg.filter (fun a => a.district == g.district_norm) with
  | [] => [(g, none)]
  | ms => ms.map (fun a => (g, some a.rainfall_mm))

/-- `gdf.merge(rain_agg, left_on="DISTRICT_NORM", right_on="DISTRICT",
how="left")` (source line 187). -/
def mergeLeft (geo : List GeoFeature) (agg : List AggRow) : List (GeoFeature × Option ℚ) :=
  geo.flatMap (fun g => mergeLeftRows g agg)

/-- Fill the missing value with 0 and attach category and color
(source lines 190-192). -/
def assembleFeature (g : GeoFeature) (v : ℚ) : ReconFeature :=
  ⟨g.district_norm, g.geom, v, get_category v, get_color v⟩

/-- The reconciled output: left merge, `fillna(0)`, classify. -/
def reconciled (geo : List GeoFeature) (agg : List AggRow) : List ReconFeature :=
  (mergeLeft geo agg).map (fun p => assembleFeature p.1 (p.2.getD 0))

/-- The diagnostic report (source lines 169-183): measurement districts
with no geometry counterpart, and geometry districts with no measurement
(the source holds them as Python sets; lists with the same membership
here). -/
structure MatchReport where
  unmatched_measurement_districts : List String
  unmatched_geometry_districts : List String
deriving DecidableEq, Repr

/-- `json_districts - geojson_districts` and its converse. -/
def mkReport (agg : List AggRow) (geo : List GeoFeature) : MatchReport :=
  { unmatched_measurement_districts :=
      (agg.map AggRow.district).filter
        (fun d => !((geo.map GeoFeature.district_norm).contains d)),
    unmatched_geometry_districts :=
      (geo.map GeoFeature.district_norm).filter
        (fun d => !((agg.map AggRow.district).contains d)) }

/-- A geometry source as the core sees it: the attribute table schema
(for column discovery) and, for each feature, the value of the district
attribute plus the opaque polygon. -/
structure GeoSource where
  cols : List Column
  feats : List (String × ℕ)
deriving Repr

/-- Alias resolution applied only to the supplementary (Goa) source
(source line 156). -/
def applyGoa (u : String) : String := applyAlias goa_mapping u

/-- Embedding of `process_data` (source lines 46-198) downstream of
loading: aggregate the measurements; discover the district column of the
primary source (`None, None` — modelled `none` — when discovery fails);
normalize the primary labels; if a supplementary source is present and
its column is discovered, normalize its labels, apply the Goa alias table
and concatenate; compute the match report; left-merge and assemble. -/
def process_data (rain : List RainRow) (primary : GeoSource)
    (supp : Option GeoSource) : Option (List ReconFeature × MatchReport) :=
  let rain_agg := aggregate rain
  match find_district_col primary.cols with
  | none => none
  | some _ =>
    let gdf := primary.feats.map (fun f => GeoFeature.mk (canon f.1) f.2)
    let gdf :=
      match supp with
      | none => gdf
      | some g =>
        match find_district_col g.cols with
        | none => gdf
        | some _ => gdf ++ g.feats.map (fun f => GeoFeature.mk (applyGoa (canon f.1)) f.2)
    some (reconciled gdf rain_agg, mkReport rain_agg gdf)

/-- Output files written by the `__main__` block (source lines 298-303
with lines 227-231 and 295): both renderers run only when `process_data`
succeeds. -/
def run_artifacts (rain : List RainRow) (primary : GeoSource)
    (supp : Option GeoSource) : List String :=
  match process_data rain primary supp with
  | none => []
  | some _ =>
    ["June_2025_rainfall_map.png", "June_2025_rainfall_map.svg",
     "June_2025_rainfall_map.html"]

/-! ## Aggregator helper lemmas -/

theorem find?_beq_of_mem {l : List String} {d : String} (h : d ∈ l) :
    l.find? (fun x => x == d) = some d := by
  induction l with
  | nil => cases h
  | cons a t ih =>
    by_cases ha : a == d
    · rw [@List.find?_cons_of_pos _ (fun x => x == d) a t ha]
      exact congrArg some (by simpa using ha)
    · rw [@List.find?_cons_of_neg _ (fun x => x == d) a t ha]
      apply ih
      rcases List.mem_cons.1 h with h | h
      · exact absurd (by simp [h]) ha
      · exact h

theorem find?_grouped (nr : List (String × ℚ)) (d : String)
    (hd : d ∈ nr.map Prod.fst) :
    (((districtsOf nr).map (fun e => (⟨e, round1 (meanFor nr e)⟩ : AggRow))).find?
      (fun a => a.district == d)).map AggRow.rainfall_mm =
      some (round1 (meanFor nr d)) := by
  rw [List.find?_map]
  have hcomp : ((fun a : AggRow => a.district == d) ∘
      (fun e => (⟨e, round1 (meanFor nr e)⟩ : AggRow))) = fun e => e == d := rfl
  rw [hcomp]
  unfold districtsOf
  rw [find?_beq_of_mem (List.mem_dedup.2 hd)]
  rfl

theorem find?_grouped_none (nr : List (String × ℚ)) (d : String)
    (hd : d ∉ nr.map Prod.fst) :
    (((districtsOf nr).map (fun e => (⟨e, round1 (meanFor nr e)⟩ : AggRow))).find?
      (fun a => a.district == d)).map AggRow.rainfall_mm = none := by
  rw [List.find?_map]
  have hcomp : ((fun a : AggRow => a.district == d) ∘
      (fun e => (⟨e, round1 (meanFor nr e)⟩ : AggRow))) = fun e => e == d := rfl
  rw [hcomp]
  have : (districtsOf nr).find? (fun e => e == d) = none := by
    rw [List.find?_eq_none]
    intro x hx
    simp only [beq_iff_eq]
    intro hxd
    exact hd (by simpa [districtsOf, hxd] using List.mem_dedup.1 hx)
  rw [this]
  rfl

theorem aggValue_eq (rows : List RainRow) (d : String)
    (hd : d ∈ (mumbaiSplit (normRows rows)).map Prod.fst) :
    aggValue rows d = some (round1 (meanFor (mumbaiSplit (normRows rows)) d)) := by
  simp only [aggValue, aggregate]
  exact find?_grouped _ _ hd

theorem aggValue_eq_none (rows : List RainRow) (d : String)
    (hd : d ∉ (mumbaiSplit (normRows rows)).map Prod.fst) :
    aggValue rows d = none := by
  simp only [aggValue, aggregate]
  exact find?_grouped_none _ _ hd

theorem aggValueNoSplit_eq (rows : List RainRow) (d : String)
    (hd : d ∈ (normRows rows).map Prod.fst) :
    aggValueNoSplit rows d = some (round1 (meanFor (normRows rows) d)) := by
  simp only [aggValueNoSplit, aggregateNoSplit]
  exact find?_grouped _ _ hd

theorem aggValueNoSplit_eq_none (rows : List RainRow) (d : String)
    (hd : d ∉ (normRows rows).map Prod.fst) :
    aggValueNoSplit rows d = none := by
  simp only [aggValueNoSplit, aggregateNoSplit]
  exact find?_grouped_none _ _ hd

theorem mumbaiSplit_filter_ne (nr : List (String × ℚ)) (d : String)
    (hd : d ≠ "MUMBAI SUBURBAN") :
    (mumbaiSplit nr).filter (fun p => p.1 == d) = nr.filter (fun p => p.1 == d) := by
  unfold mumbaiSplit
  split
  · rw [List.filter_append]
    have h2 : ((nr.filter (fun p => p.1 == "MUMBAI")).map
        (fun p => ("MUMBAI SUBURBAN", p.2))).filter (fun p => p.1 == d) = [] := by
      rw [List.filter_eq_nil_iff]
      intro a ha
      obtain ⟨q, hq, rfl⟩ := List.mem_map.1 ha
      simpa using fun hcontra => hd hcontra.symm
    rw [h2, List.append_nil]
  · rfl

theorem mumbaiSplit_keys_ne (nr : List (String × ℚ)) (d : String)
    (hd : d ≠ "MUMBAI SUBURBAN") :
    (d ∈ (mumbaiSplit nr).map Prod.fst) ↔ d ∈ nr.map Prod.fst := by
  unfold mumbaiSplit
  split
  · rw [List.map_append, List.mem_append]
    constructor
    · rintro (h | h)
      · exact h
      · exfalso
        obtain ⟨q, hq, hq2⟩ := List.mem_map.1 h
        obtain ⟨r, hr, rfl⟩ := List.mem_map.1 hq
        exact hd hq2.symm
    · exact Or.inl
  · exact Iff.rfl

theorem meanFor_mumbaiSplit_ne (nr : List (String × ℚ)) (d : String)
    (hd : d ≠ "MUMBAI SUBURBAN") :
    meanFor (mumbaiSplit nr) d = meanFor nr d := by
  unfold meanFor
  rw [mumbaiSplit_filter_ne nr d hd]

theorem roundHalfEven_intCast (n : ℤ) : roundHalfEven (n : ℚ) = n := by
  unfold roundHalfEven
  have hf : ((n : ℚ)).floor = n := by
    rw [Rat.floor_def']
    simp
  rw [hf]
  norm_num

theorem round1_div_ten (n : ℤ) : round1 ((n : ℚ) / 10) = (n : ℚ) / 10 := by
  unfold round1
  rw [show (10 : ℚ) * ((n : ℚ) / 10) = (n : ℚ) by ring, roundHalfEven_intCast]

theorem value_parse_warnings_eq_nil (rows : List RainRow) :
    value_parse_warnings rows = [] := by
  induction rows with
  | nil => rfl
  | cons r t ih => exact ih

theorem round1_fixed_of_tenth (n : ℤ) (q : ℚ) (hq : q = (n : ℚ) / 10) : round1 q = q := by
  rw [hq, round1_div_ten]

/-! ## Claim theorems: aggregator -/

/-- C4 counterexample: at the spec scenario input "N/A" the value does
fail parsing and is substituted by 0, but the conversion step
(`pd.to_numeric(...).fillna(0)`, source lines 63-64) emits no warning:
its warning list is empty, refuting the claim that a warning is emitted. -/
theorem malformed_value_no_warning_counterexample :
    parseNum "N/A" = none ∧ rowValue ⟨"X", "N/A"⟩ = 0 ∧
    value_parse_warnings [⟨"X", "N/A"⟩] = [] :=
  ⟨by decide, by decide, rfl⟩

/-- C4 amended: for every record whose rainfall value fails numeric
parsing, the value is substituted with 0.0 and the run continues (the row
still contributes, with value 0, and on the scenario input the whole
aggregation still produces its output), but no warning is emitted: the
conversion is silent. -/
theorem parse_failure_substitution (rows : List RainRow) (r : RainRow)
    (hr : r ∈ rows) (hfail : parseNum r.rf = none) :
    rowValue r = 0 ∧ (normalize r.district, 0) ∈ normRows rows ∧
    value_parse_warnings rows = [] ∧
    aggregate [⟨"X", "N/A"⟩] = [⟨"X", 0⟩] := by
  refine ⟨by simp [rowValue, hfail], ?_, value_parse_warnings_eq_nil rows, ?_⟩
  · have hmem : (normalize r.district, rowValue r) ∈ normRows rows :=
      List.mem_map.2 ⟨r, hr, rfl⟩
    simpa [rowValue, hfail] using hmem
  · have hp : parseNum "N/A" = none := by decide
    have hn : normalize "X" = "X" := by decide
    have hnr : normRows [⟨"X", "N/A"⟩] = [("X", 0)] := by
      simp [normRows, rowValue, hp, hn]
    have hsp : mumbaiSplit [("X", (0 : ℚ))] = [("X", 0)] := by simp [mumbaiSplit]
    simp only [aggregate]
    rw [hnr, hsp]
    have hd : districtsOf [("X", (0 : ℚ))] = ["X"] := by decide
    rw [hd]
    have hm : meanFor [("X", (0 : ℚ))] "X" = 0 := by simp [meanFor]
    rw [List.map_singleton, hm, round1_fixed_of_tenth 0 0 (by norm_num)]

/-- Witness for the amended C4 at the scenario row ("X", "N/A"). -/
theorem parse_failure_substitution_witness :
    (⟨"X", "N/A"⟩ : RainRow) ∈ [(⟨"X", "N/A"⟩ : RainRow)] ∧
    rowValue ⟨"X", "N/A"⟩ = 0 ∧ value_parse_warnings [(⟨"X", "N/A"⟩ : RainRow)] = [] :=
  ⟨by decide,
   (parse_failure_substitution [⟨"X", "N/A"⟩] ⟨"X", "N/A"⟩ (by decide) (by decide)).1,
   (parse_failure_substitution [⟨"X", "N/A"⟩] ⟨"X", "N/A"⟩ (by decide) (by decide)).2.2.1⟩

/-- C5 counterexample: with measurement rows Mumbai = 10 and
Mumbai Suburban = 20, the parent key MUMBAI is present among the
normalized rows, yet the aggregated MUMBAI SUBURBAN value is 15 (the mean
of the pre-existing suburban row and the duplicated parent row), not the
parent aggregated value 10. -/
theorem mumbai_suburban_value_counterexample :
    "MUMBAI" ∈ (normRows [⟨"Mumbai", "10"⟩, ⟨"Mumbai Suburban", "20"⟩]).map Prod.fst ∧
    aggValue [⟨"Mumbai", "10"⟩, ⟨"Mumbai Suburban", "20"⟩] "MUMBAI" = some 10 ∧
    aggValue [⟨"Mumbai", "10"⟩, ⟨"Mumbai Suburban", "20"⟩] "MUMBAI SUBURBAN" = some 15 ∧
    (some (15 : ℚ) ≠ some (10 : ℚ)) := by
  have hnr : normRows [⟨"Mumbai", "10"⟩, ⟨"Mumbai Suburban", "20"⟩] =
      [("MUMBAI", 10), ("MUMBAI SUBURBAN", 20)] := by
    simp [normRows, rowValue, parseNum, stripL, lstripL, rstripL, isSpaceChar, digitsToNat,
      normalize, canon, upperL, applyAlias, name_mapping]
    decide
  have hsp : mumbaiSplit [("MUMBAI", (10 : ℚ)), ("MUMBAI SUBURBAN", 20)] =
      [("MUMBAI", 10), ("MUMBAI SUBURBAN", 20), ("MUMBAI SUBURBAN", 10)] := by
    simp [mumbaiSplit]
  refine ⟨?_, ?_, ?_, by simp⟩
  · rw [hnr]; decide
  · rw [aggValue_eq _ _ ?side]
    case side => rw [hnr, hsp]; decide
    rw [hnr, hsp]
    have hm : meanFor [("MUMBAI", (10 : ℚ)), ("MUMBAI SUBURBAN", 20), ("MUMBAI SUBURBAN", 10)]
        "MUMBAI" = 10 := by simp [meanFor]
    rw [hm, round1_fixed_of_tenth 100 10 (by norm_num)]
  · rw [aggValue_eq _ _ ?side2]
    case side2 => rw [hnr, hsp]; decide
    rw [hnr, hsp]
    have hm : meanFor [("MUMBAI", (10 : ℚ)), ("MUMBAI SUBURBAN", 20), ("MUMBAI SUBURBAN", 10)]
        "MUMBAI SUBURBAN" = 15 := by
      simp [meanFor]
      norm_num
    rw [hm, round1_fixed_of_tenth 150 15 (by norm_num)]

/-- C5 amended: when MUMBAI is present among the normalized rows and no
MUMBAI SUBURBAN row pre-exists, the aggregated output contains a
MUMBAI SUBURBAN entry whose value equals the parent aggregated value;
in particular the spec scenario holds: from the single row
("Mumbai", "12.3"), both the MUMBAI and MUMBAI SUBURBAN geometry
features receive value 12.3 and the MODERATE bucket. -/
theorem mumbai_split_inherits (rows : List RainRow)
    (hm : "MUMBAI" ∈ (normRows rows).map Prod.fst)
    (hs : "MUMBAI SUBURBAN" ∉ (normRows rows).map Prod.fst) :
    aggValue rows "MUMBAI SUBURBAN" = aggValue rows "MUMBAI" ∧
    aggValue [⟨"Mumbai", "12.3"⟩] "MUMBAI" = some 12.3 ∧
    aggValue [⟨"Mumbai", "12.3"⟩] "MUMBAI SUBURBAN" = some 12.3 ∧
    (reconciled [⟨"MUMBAI", 0⟩, ⟨"MUMBAI SUBURBAN", 1⟩]
        (aggregate [⟨"Mumbai", "12.3"⟩])).map ReconFeature.rainfall_mm = [12.3, 12.3] ∧
    (reconciled [⟨"MUMBAI", 0⟩, ⟨"MUMBAI SUBURBAN", 1⟩]
        (aggregate [⟨"Mumbai", "12.3"⟩])).map ReconFeature.category =
      [get_category 12.3, get_category 12.3] ∧
    get_category (12.3 : ℚ) = "Moderate Rainfall" ∧
    classify (12.3 : ℚ) = MODERATE := by
  have hgen : aggValue rows "MUMBAI SUBURBAN" = aggValue rows "MUMBAI" := by
    have hfire : (normRows rows).any (fun p => p.1 == "MUMBAI") = true := by
      rw [List.any_eq_true]
      obtain ⟨p, hp, hp2⟩ := List.mem_map.1 hm
      exact ⟨p, hp, by simp [hp2]⟩
    have hsplit_def : mumbaiSplit (normRows rows) = normRows rows ++
        ((normRows rows).filter (fun p => p.1 == "MUMBAI")).map
          (fun p => ("MUMBAI SUBURBAN", p.2)) := by
      unfold mumbaiSplit
      rw [hfire]
      simp
    have hfil : (normRows rows).filter (fun p => p.1 == "MUMBAI") ≠ [] := by
      obtain ⟨p, hp, hp2⟩ := List.mem_map.1 hm
      intro hnil
      rw [List.filter_eq_nil_iff] at hnil
      exact hnil p hp (by simp [hp2])
    have hmM : "MUMBAI" ∈ (mumbaiSplit (normRows rows)).map Prod.fst :=
      (mumbaiSplit_keys_ne _ _ (by decide)).2 hm
    have hmS : "MUMBAI SUBURBAN" ∈ (mumbaiSplit (normRows rows)).map Prod.fst := by
      rw [hsplit_def, List.map_append, List.mem_append]
      right
      obtain ⟨p, hp⟩ := List.exists_mem_of_ne_nil _ hfil
      exact List.mem_map.2 ⟨("MUMBAI SUBURBAN", p.2), List.mem_map.2 ⟨p, hp, rfl⟩, rfl⟩
    rw [aggValue_eq rows _ hmS, aggValue_eq rows _ hmM]
    congr 1
    congr 1
    have hR : meanFor (mumbaiSplit (normRows rows)) "MUMBAI" =
        meanFor (normRows rows) "MUMBAI" :=
      meanFor_mumbaiSplit_ne _ "MUMBAI" (by decide)
    rw [hR]
    have hnil : (normRows rows).filter (fun p => p.1 == "MUMBAI SUBURBAN") = [] := by
      rw [List.filter_eq_nil_iff]
      intro p hp hps
      exact hs (List.mem_map.2 ⟨p, hp, by simpa using hps⟩)
    simp only [meanFor]
    rw [hsplit_def, List.filter_append, hnil, List.nil_append]
    have hself : (((normRows rows).filter (fun p => p.1 == "MUMBAI")).map
        (fun p => ("MUMBAI SUBURBAN", p.2))).filter (fun p => p.1 == "MUMBAI SUBURBAN") =
        ((normRows rows).filter (fun p => p.1 == "MUMBAI")).map
          (fun p => ("MUMBAI SUBURBAN", p.2)) := by
      rw [List.filter_eq_self]
      intro a ha
      obtain ⟨q, hq, rfl⟩ := List.mem_map.1 ha
      simp
    rw [hself, List.map_map]
    rfl
  have hlit : (12.3 : ℚ) = 123/10 := by norm_num
  have h123 : round1 (123/10 : ℚ) = 123/10 := round1_fixed_of_tenth 123 _ (by norm_num)
  have hnr : normRows [⟨"Mumbai", "12.3"⟩] = [("MUMBAI", 123/10)] := by
    simp [normRows, rowValue, parseNum, stripL, lstripL, rstripL, isSpaceChar, digitsToNat,
      normalize, canon, upperL, applyAlias, name_mapping]
    norm_num
    decide
  have hsp : mumbaiSplit [("MUMBAI", (123/10 : ℚ))] =
      [("MUMBAI", 123/10), ("MUMBAI SUBURBAN", 123/10)] := by
    simp [mumbaiSplit]
  have hagg : aggregate [⟨"Mumbai", "12.3"⟩] =
      [⟨"MUMBAI", 123/10⟩, ⟨"MUMBAI SUBURBAN", 123/10⟩] := by
    simp only [aggregate]
    rw [hnr, hsp]
    have hd : districtsOf [("MUMBAI", (123/10 : ℚ)), ("MUMBAI SUBURBAN", 123/10)] =
        ["MUMBAI", "MUMBAI SUBURBAN"] := by decide
    rw [hd]
    have hm1 : meanFor [("MUMBAI", (123/10 : ℚ)), ("MUMBAI SUBURBAN", 123/10)] "MUMBAI" =
        123/10 := by simp [meanFor]
    have hm2 : meanFor [("MUMBAI", (123/10 : ℚ)), ("MUMBAI SUBURBAN", 123/10)]
        "MUMBAI SUBURBAN" = 123/10 := by simp [meanFor]
    simp [hm1, hm2, h123]
  have hrec : reconciled [⟨"MUMBAI", 0⟩, ⟨"MUMBAI SUBURBAN", 1⟩]
      (aggregate [⟨"Mumbai", "12.3"⟩]) =
      [assembleFeature ⟨"MUMBAI", 0⟩ (123/10),
       assembleFeature ⟨"MUMBAI SUBURBAN", 1⟩ (123/10)] := by
    rw [hagg]
    rfl
  have hvM : aggValue [⟨"Mumbai", "12.3"⟩] "MUMBAI" = some (123/10) := by
    simp only [aggValue]
    rw [hagg]
    rfl
  have hvS : aggValue [⟨"Mumbai", "12.3"⟩] "MUMBAI SUBURBAN" = some (123/10) := by
    simp only [aggValue]
    rw [hagg]
    rfl
  refine ⟨hgen, by rw [hvM, hlit], by rw [hvS, hlit], ?_, ?_, ?_, ?_⟩
  · rw [hrec, hlit]
    rfl
  · rw [hrec, hlit]
    rfl
  · norm_num [get_category]
  · norm_num [classify]

/-- Witness for the amended C5 at the scenario input ("Mumbai", "12.3"). -/
theorem mumbai_split_inherits_witness :
    "MUMBAI" ∈ (normRows [⟨"Mumbai", "12.3"⟩]).map Prod.fst ∧
    aggValue [⟨"Mumbai", "12.3"⟩] "MUMBAI SUBURBAN" =
      aggValue [⟨"Mumbai", "12.3"⟩] "MUMBAI" :=
  ⟨by decide, (mumbai_split_inherits [⟨"Mumbai", "12.3"⟩] (by decide) (by decide)).1⟩

/-- C10: the district-split rule only adds rows: for every canonical
district other than the derived key MUMBAI SUBURBAN, the aggregated value
is the same as in the split-disabled baseline, and when MUMBAI is absent
from the normalized measurements the split does not fire at all, so the
aggregated output is the baseline unchanged (no MUMBAI SUBURBAN entry is
synthesized). -/
theorem mumbai_split_frame_effect :
    (∀ rows d, d ≠ "MUMBAI SUBURBAN" → aggValue rows d = aggValueNoSplit rows d) ∧
    (∀ rows, "MUMBAI" ∉ (normRows rows).map Prod.fst →
      aggregate rows = aggregateNoSplit rows) := by
  constructor
  · intro rows d hd
    by_cases hmem : d ∈ (normRows rows).map Prod.fst
    · rw [aggValue_eq rows d ((mumbaiSplit_keys_ne _ _ hd).2 hmem),
        aggValueNoSplit_eq rows d hmem, meanFor_mumbaiSplit_ne _ _ hd]
    · rw [aggValue_eq_none rows d (fun hc => hmem ((mumbaiSplit_keys_ne _ _ hd).1 hc)),
        aggValueNoSplit_eq_none rows d hmem]
  · intro rows hnm
    have hany : (normRows rows).any (fun p => p.1 == "MUMBAI") = false := by
      rw [List.any_eq_false]
      intro p hp
      simp only [beq_iff_eq]
      intro h
      exact hnm (List.mem_map.2 ⟨p, hp, h⟩)
    have hsp : mumbaiSplit (normRows rows) = normRows rows := by
      unfold mumbaiSplit
      rw [hany]
      simp
    simp only [aggregate, aggregateNoSplit]
    rw [hsp]

/-- Witness for C10 at the concrete row ("Pune", "5"). -/
theorem mumbai_split_frame_effect_witness :
    (("PUNE" : String) ≠ "MUMBAI SUBURBAN" ∧
      aggValue [⟨"Pune", "5"⟩] "PUNE" = aggValueNoSplit [⟨"Pune", "5"⟩] "PUNE") ∧
    ("MUMBAI" ∉ (normRows [⟨"Pune", "5"⟩]).map Prod.fst ∧
      aggregate [⟨"Pune", "5"⟩] = aggregateNoSplit [⟨"Pune", "5"⟩]) :=
  ⟨⟨by decide, mumbai_split_frame_effect.1 _ _ (by decide)⟩,
   ⟨by decide, mumbai_split_frame_effect.2 _ (by decide)⟩⟩

/-! ## Claim theorems: reconciliation join and column discovery -/

theorem flatMap_pure_eq_map (f : GeoFeature → GeoFeature × Option ℚ)
    (l : List GeoFeature) : (l.flatMap fun g => [f g]) = l.map f := by
  induction l with
  | nil => rfl
  | cons a t ih => simp [List.flatMap_cons, ih]

theorem filter_eq_of_nodup (agg : List AggRow) (d : String)
    (h : (agg.map AggRow.district).Nodup) :
    agg.filter (fun a => a.district == d) =
      match agg.find? (fun a => a.district == d) with
      | none => []
      | some a => [a] := by
  induction agg with
  | nil => rfl
  | cons a t ih =>
    rw [List.map_cons, List.nodup_cons] at h
    by_cases hp : (a.district == d) = true
    · rw [@List.filter_cons_of_pos _ (fun a => a.district == d) a t hp,
        @List.find?_cons_of_pos _ (fun a => a.district == d) a t hp]
      have ht : t.filter (fun a => a.district == d) = [] := by
        rw [List.filter_eq_nil_iff]
        intro b hb hbd
        apply h.1
        have had : a.district = d := by simpa using hp
        have hbd2 : b.district = d := by simpa using hbd
        rw [had, ← hbd2]
        exact List.mem_map.2 ⟨b, hb, rfl⟩
      rw [ht]
    · rw [@List.filter_cons_of_neg _ (fun a => a.district == d) a t hp,
        @List.find?_cons_of_neg _ (fun a => a.district == d) a t hp]
      exact ih h.2

theorem mergeLeftRows_of_nodup (g : GeoFeature) (agg : List AggRow)
    (h : (agg.map AggRow.district).Nodup) :
    mergeLeftRows g agg =
      [(g, (agg.find? (fun a => a.district == g.district_norm)).map AggRow.rainfall_mm)] := by
  unfold mergeLeftRows
  rw [filter_eq_of_nodup agg g.district_norm h]
  cases agg.find? (fun a => a.district == g.district_norm) with
  | none => rfl
  | some a => rfl

theorem mergeLeftRows_fst (g : GeoFeature) (agg : List AggRow) :
    ∀ q ∈ mergeLeftRows g agg, q.1 = g := by
  intro q hq
  unfold mergeLeftRows at hq
  split at hq
  · rw [List.mem_singleton] at hq
    rw [hq]
  · obtain ⟨b, hb, rfl⟩ := List.mem_map.1 hq
    rfl

/-- C6: the reconciliation join is total over geometry: when the
aggregated districts are unique, the reconciled output is exactly one
assembled feature per input geometry feature, in order, carrying the
matching measurement value (or 0 when none matches), and in particular
its length equals the geometry length. -/
theorem reconcile_left_join (geo : List GeoFeature) (agg : List AggRow)
    (h : (agg.map AggRow.district).Nodup) :
    reconciled geo agg = geo.map (fun g => assembleFeature g
      (((agg.find? (fun a => a.district == g.district_norm)).map
        AggRow.rainfall_mm).getD 0)) ∧
    (reconciled geo agg).length = geo.length := by
  have hml : mergeLeft geo agg = geo.map (fun g =>
      (g, (agg.find? (fun a => a.district == g.district_norm)).map AggRow.rainfall_mm)) := by
    unfold mergeLeft
    rw [show (fun g => mergeLeftRows g agg) = fun g =>
        [(g, (agg.find? (fun a => a.district == g.district_norm)).map AggRow.rainfall_mm)]
      from funext (fun g => mergeLeftRows_of_nodup g agg h)]
    exact flatMap_pure_eq_map _ geo
  constructor
  · unfold reconciled
    rw [hml, List.map_map]
    rfl
  · unfold reconciled
    rw [hml, List.length_map, List.length_map]

/-- Witness for C6 at a concrete geometry pair and a one-row measurement
set. -/
theorem reconcile_left_join_witness :
    (([⟨"A", (5 : ℚ)⟩] : List AggRow).map AggRow.district).Nodup ∧
    (reconciled [⟨"A", 0⟩, ⟨"B", 1⟩] [⟨"A", 5⟩]).length =
      ([⟨"A", 0⟩, ⟨"B", 1⟩] : List GeoFeature).length :=
  ⟨by decide, (reconcile_left_join [⟨"A", 0⟩, ⟨"B", 1⟩] [⟨"A", 5⟩] (by decide)).2⟩

/-- C7: a geometry feature matching no measurement is reconciled with
value 0, the NONE label "No Rainfall", the light grey color and the NONE
bucket, and its district is reported in unmatched_geometry_districts; a
measurement district matching no geometry is reported in
unmatched_measurement_districts and no reconciled feature carries it
(it is silently dropped); both cases produce ordinary values, never an
exception. -/
theorem unmatched_handling :
    (∀ (geo : List GeoFeature) (agg : List AggRow) (g : GeoFeature), g ∈ geo →
      (∀ a ∈ agg, a.district ≠ g.district_norm) →
      assembleFeature g 0 ∈ reconciled geo agg ∧
      (assembleFeature g 0).rainfall_mm = 0 ∧
      (assembleFeature g 0).category = "No Rainfall" ∧
      (assembleFeature g 0).color = "#D3D3D3" ∧
      classify (assembleFeature g 0).rainfall_mm = SeverityBucket.NONE ∧
      g.district_norm ∈ (mkReport agg geo).unmatched_geometry_districts) ∧
    (∀ (geo : List GeoFeature) (agg : List AggRow) (a : AggRow), a ∈ agg →
      (∀ g ∈ geo, g.district_norm ≠ a.district) →
      a.district ∈ (mkReport agg geo).unmatched_measurement_districts ∧
      ∀ f ∈ reconciled geo agg, f.district_norm ≠ a.district) := by
  constructor
  · intro geo agg g hg hnm
    have hfil : agg.filter (fun a => a.district == g.district_norm) = [] :=
      List.filter_eq_nil_iff.2 (fun a ha => by simpa using hnm a ha)
    have hrow : mergeLeftRows g agg = [(g, none)] := by
      unfold mergeLeftRows
      rw [hfil]
    have hmem : (g, (none : Option ℚ)) ∈ mergeLeft geo agg :=
      List.mem_flatMap.2 ⟨g, hg, by rw [hrow]; exact List.mem_singleton.2 rfl⟩
    refine ⟨List.mem_map.2 ⟨(g, none), hmem, rfl⟩, rfl, ?_, ?_, ?_, ?_⟩
    · norm_num [assembleFeature, get_category]
    · norm_num [assembleFeature, get_color]
    · norm_num [assembleFeature, classify]
    · refine List.mem_filter.2 ⟨List.mem_map.2 ⟨g, hg, rfl⟩, ?_⟩
      simp only [Bool.not_eq_true']
      rw [List.contains_eq_any_beq, List.any_eq_false]
      intro x hx
      obtain ⟨b, hb, rfl⟩ := List.mem_map.1 hx
      simpa using (hnm b hb).symm
  · intro geo agg a ha hng
    constructor
    · refine List.mem_filter.2 ⟨List.mem_map.2 ⟨a, ha, rfl⟩, ?_⟩
      simp only [Bool.not_eq_true']
      rw [List.contains_eq_any_beq, List.any_eq_false]
      intro x hx
      obtain ⟨g, hg, rfl⟩ := List.mem_map.1 hx
      simpa using (hng g hg).symm
    · intro f hf
      obtain ⟨p, hp, rfl⟩ := List.mem_map.1 hf
      obtain ⟨g, hg, hpg⟩ := List.mem_flatMap.1 hp
      have h1 : p.1 = g := mergeLeftRows_fst g agg p hpg
      show (assembleFeature p.1 _).district_norm ≠ a.district
      rw [show (assembleFeature p.1 (p.2.getD 0)).district_norm = p.1.district_norm from rfl,
        h1]
      exact hng g hg

/-- Witness for C7: geometry XYZ with no measurement, and measurement ABC
with no geometry. -/
theorem unmatched_handling_witness :
    ((⟨"XYZ", 0⟩ : GeoFeature) ∈ ([⟨"XYZ", 0⟩] : List GeoFeature) ∧
      "XYZ" ∈ (mkReport [⟨"ABC", 7⟩] [⟨"XYZ", 0⟩]).unmatched_geometry_districts) ∧
    "ABC" ∈ (mkReport [⟨"ABC", 7⟩] [⟨"XYZ", 0⟩]).unmatched_measurement_districts :=
  ⟨⟨by decide,
    (unmatched_handling.1 [⟨"XYZ", 0⟩] [⟨"ABC", 7⟩] ⟨"XYZ", 0⟩ (by decide)
      (by decide)).2.2.2.2.2⟩,
   (unmatched_handling.2 [⟨"XYZ", 0⟩] [⟨"ABC", 7⟩] ⟨"ABC", 7⟩ (by decide) (by decide)).1⟩

/-- C8: geometry column discovery returns the first column, in table
order, that case-insensitively matches the candidate list and is textual;
when no column qualifies, discovery returns `none` (the
`SchemaResolutionError` outcome), and when that happens for the primary
source the whole run returns nothing and produces no artifact. -/
theorem district_col_discovery :
    (∀ pre (c : Column) post, (∀ c2 ∈ pre, qualifies c2 = false) → qualifies c = true →
      find_district_col (pre ++ c :: post) = some c.name) ∧
    (∀ cols, (∀ c ∈ cols, qualifies c = false) → find_district_col cols = none) ∧
    (∀ rain primary supp, find_district_col primary.cols = none →
      process_data rain primary supp = none ∧ run_artifacts rain primary supp = []) := by
  refine ⟨?_, ?_, ?_⟩
  · intro pre c post hpre hc
    unfold find_district_col
    rw [List.find?_append]
    have h1 : pre.find? qualifies = none :=
      List.find?_eq_none.2 (fun x hx => by simp [hpre x hx])
    rw [h1, Option.none_or, @List.find?_cons_of_pos _ qualifies c post hc]
    rfl
  · intro cols h
    unfold find_district_col
    rw [List.find?_eq_none.2 (fun x hx => by simp [h x hx])]
    rfl
  · intro rain primary supp h
    constructor
    · simp only [process_data, h]
    · simp only [run_artifacts, process_data, h]

/-- Witness for C8: a schema whose first qualifying column is "District"
(preceded by a non-candidate name and a non-textual candidate), and a
schema with no qualifying column that yields no output. -/
theorem district_col_discovery_witness :
    find_district_col [⟨"foo", true⟩, ⟨"DTNAME", false⟩, ⟨"District", true⟩] =
      some "District" ∧
    process_data [] ⟨[⟨"geometry", false⟩], []⟩ none = none :=
  ⟨district_col_discovery.1 [⟨"foo", true⟩, ⟨"DTNAME", false⟩] ⟨"District", true⟩ []
      (by decide) (by decide),
   (district_col_discovery.2.2 [] ⟨[⟨"geometry", false⟩], []⟩ none (by decide)).1⟩

end Rainfall
